import Mathlib

/-! Verification of the reconciliation and event-translation engine of
`hetzner_drive_sync.py`, a local-to-remote WebDAV folder synchronizer.
The script is embedded shallowly: remote calls are abstracted by
environments of Boolean success oracles, paths are slash-separated
strings, and every Python loop becomes a structurally recursive Lean
function that returns the trace of attempted remote calls together with
the counters the script maintains. -/

set_option maxRecDepth 8000

/-- REMOTE_DIR constant of the script: the fixed remote sync root. -/
def REMOTE_DIR : String := "/HetznerDrive"

/-- Scan of the Python `str.replace` over a list of characters: at each
position, when the pattern matches, it is replaced and the scan resumes
after the matched occurrence. The fuel argument bounds the recursion and
is instantiated with the length of the scanned list, which suffices
because every step consumes at least one character of the scanned list. -/
def replaceScan (pat rep : List Char) : Nat → List Char → List Char
  | _, [] => []
  | 0, s => s
  | fuel + 1, c :: rest =>
    if pat ≠ [] ∧ pat.isPrefixOf (c :: rest) then
      rep ++ replaceScan pat rep fuel (List.drop pat.length (c :: rest))
    else
      c :: replaceScan pat rep fuel rest

/-- Model of the Python expression `s.replace(pat, rep)`: replaces every
non-overlapping occurrence of `pat` in `s`, scanning left to right. -/
def pyReplace (s pat rep : String) : String :=
  String.mk (replaceScan pat.data rep.data s.data.length s.data)

/-- Model of the Python expression `s.lstrip(c)` for the slash character. -/
def lstripSlash (s : String) : String :=
  String.mk (s.data.dropWhile (fun c => c = '/'))

/-- Model of the Python expression `s.rstrip(c)` for the slash character. -/
def rstripSlash (s : String) : String :=
  String.mk ((s.data.reverse.dropWhile (fun c => c = '/')).reverse)

/-- Helper for `lastComponent`: accumulates the current slash-separated
segment in reverse and restarts it at every separator. -/
def lastComponentAux (cur : List Char) : List Char → List Char
  | [] => cur.reverse
  | c :: rest =>
    if c = '/' then lastComponentAux [] rest else lastComponentAux (c :: cur) rest

/-- Model of the Python expression `s.split(c)[-1]` for the slash separator. -/
def lastComponent (s : String) : String :=
  String.mk (lastComponentAux [] s.data)

/-- Model of the Python expression `s.endswith(c)` for the slash character. -/
def endsWithSlash (s : String) : Bool :=
  s.data.getLastD ' ' = '/'

/-- Model of the replacement of backslashes by slashes that the handlers
apply to the paths they build. -/
def toSlash (s : String) : String := pyReplace s "\\" "/"

/-- Model of `Path(p).relative_to(root)` on resolved slash-separated paths:
returns the path of `p` relative to `root`, and `none` (the ValueError
case) when `p` is neither `root` nor a descendant of `root`. -/
def relativeTo (p root : String) : Option String :=
  if p = root then some "."
  else if (root ++ "/").data.isPrefixOf p.data then
    some (String.mk (p.data.drop (root.data.length + 1)))
  else none

/-- Remote path the script builds for a relative path: the f-string
interpolation of REMOTE_DIR, a slash and the relative path. -/
def remotePathOf (rel : String) : String := REMOTE_DIR ++ "/" ++ rel

/-- Remote WebDAV calls the script can attempt. -/
inductive RemoteOp where
  | upload (remotePath : String)
  | mkdir (remotePath : String)
  | clean (remotePath : String)
  | move (src dst : String)
deriving DecidableEq

/-- Environment giving the outcome of each remote call attempted while the
live watch is running: `true` means the call returns, `false` means it
raises. -/
structure WatchEnv where
  uploadOk : String → Bool
  mkdirOk : String → Bool
  cleanOk : String → Bool
  moveOk : String → String → Bool

/-- Result of one handler invocation: `ok` when the handler body ran
without an exception, `logged` when an exception was raised, caught and
logged inside the handler, and `crashed` when an exception escaped the
handler into the watchdog dispatch loop. Both `ok` and `logged` carry the
remote calls the handler attempted before returning. -/
inductive HandlerOutcome where
  | ok (attempted : List RemoteOp)
  | logged (attempted : List RemoteOp)
  | crashed
deriving DecidableEq

/-- Remote calls a handler invocation attempted; a crashed invocation
attempted none, because in `on_moved` the crash happens before the move
call is reached. -/
def HandlerOutcome.attemptedOps : HandlerOutcome → List RemoteOp
  | .ok ops => ops
  | .logged ops => ops
  | .crashed => []

/-- Embedding of `LocalHandler.upload`: derives the relative path, attempts
`upload_sync`, and catches any exception inside the method itself (the
comment in the source says it must not re-raise). A path outside the root
makes `relative_to` raise; the except block formats the `path` parameter,
which is always bound, so the method always returns normally. -/
def LocalHandler.upload (root : String) (env : WatchEnv) (path : String) :
    HandlerOutcome :=
  match relativeTo path root with
  | none => .logged []
  | some rel0 =>
    let remote := REMOTE_DIR ++ "/" ++ toSlash rel0
    if env.uploadOk remote then .ok [RemoteOp.upload remote]
    else .logged [RemoteOp.upload remote]

/-- Embedding of `LocalHandler.on_modified`: directory events are ignored
(the body is guarded by `not event.is_directory`); file events call
`upload`, whose own handler already catches everything, and the extra
try-except in `on_modified` therefore never fires. -/
def LocalHandler.on_modified (root : String) (env : WatchEnv) (isDir : Bool)
    (src : String) : HandlerOutcome :=
  if isDir then .ok [] else LocalHandler.upload root env src

/-- Embedding of `LocalHandler.on_created`: file events upload, directory
events attempt `mkdir` on the mapped path; both branches catch and log
their exceptions, formatting `event.src_path`, which is always bound. -/
def LocalHandler.on_created (root : String) (env : WatchEnv) (isDir : Bool)
    (src : String) : HandlerOutcome :=
  if isDir then
    match relativeTo src root with
    | none => .logged []
    | some rel =>
      let remote := toSlash (REMOTE_DIR ++ "/" ++ rel)
      if env.mkdirOk remote then .ok [RemoteOp.mkdir remote]
      else .logged [RemoteOp.mkdir remote]
  else LocalHandler.upload root env src

/-- Embedding of `LocalHandler.on_deleted`: the body is guarded by
`not event.is_directory`, so a directory deletion event does nothing at
all; a file deletion event attempts `clean` on the mapped path, catching
and logging any exception. -/
def LocalHandler.on_deleted (root : String) (env : WatchEnv) (isDir : Bool)
    (src : String) : HandlerOutcome :=
  if isDir then .ok []
  else
    match relativeTo src root with
    | none => .logged []
    | some rel =>
      let remote := toSlash (REMOTE_DIR ++ "/" ++ rel)
      if env.cleanOk remote then .ok [RemoteOp.clean remote]
      else .logged [RemoteOp.clean remote]

/-- Embedding of `LocalHandler.on_moved`. The body computes `rel_source`,
then `remote_path_source`, then `rel_dest`, then `remote_path_dest`, then
calls `move`; any exception jumps to the except block, which formats
`remote_path_source`. When the exception was raised while computing
`rel_source` (source path outside the root), `remote_path_source` is not
yet bound and the except block itself raises UnboundLocalError, which
escapes the handler: that is the `crashed` outcome. Exceptions raised at
any later step are logged and the handler returns normally. -/
def LocalHandler.on_moved (root : String) (env : WatchEnv) (src dest : String) :
    HandlerOutcome :=
  match relativeTo src root with
  | none => .crashed
  | some relSrc =>
    let remoteSrc := toSlash (REMOTE_DIR ++ "/" ++ relSrc)
    match relativeTo dest root with
    | none => .logged []
    | some relDest =>
      let remoteDest := toSlash (REMOTE_DIR ++ "/" ++ relDest)
      if env.moveOk remoteSrc remoteDest then .ok [RemoteOp.move remoteSrc remoteDest]
      else .logged [RemoteOp.move remoteSrc remoteDest]

/-- Filesystem change notifications delivered by the watchdog observer. -/
inductive ChangeEvent where
  | created (isDir : Bool) (path : String)
  | modified (isDir : Bool) (path : String)
  | deleted (isDir : Bool) (path : String)
  | moved (isDir : Bool) (src dest : String)
deriving DecidableEq

/-- Dispatch of one change event to the matching `LocalHandler` method, as
the watchdog loop performs it. -/
def handleEvent (root : String) (env : WatchEnv) : ChangeEvent → HandlerOutcome
  | .created d p => LocalHandler.on_created root env d p
  | .modified d p => LocalHandler.on_modified root env d p
  | .deleted d p => LocalHandler.on_deleted root env d p
  | .moved _ s t => LocalHandler.on_moved root env s t

/-- Watch environment in which every remote call succeeds. -/
def watchEnvAllOk : WatchEnv :=
  ⟨fun _ => true, fun _ => true, fun _ => true, fun _ _ => true⟩

/-- Result of the `client.info` query in the upload loop of `startup_sync`:
`raise` when the query (or the later float conversion of the modified
field) raises, `falsy` when it returns a value the `if remote_info:` test
rejects, and `metadata m` when it returns usable metadata whose modified
field parses to the timestamp `m`. -/
inductive InfoResult where
  | raise
  | falsy
  | metadata (modified : Int)
deriving DecidableEq

/-- Environment giving the outcome of every remote call and of the local
stat during one reconciliation pass: `cleanOk`, `mkdirOk` and `uploadOk`
tell whether the respective call returns or raises, `info` gives the
metadata query result for a remote path, and `statMtime` gives the local
modification time for a relative path, `none` meaning the stat raised
(caught by the same bare except as a failing metadata query). -/
structure RemoteEnv where
  cleanOk : String → Bool
  mkdirOk : String → Bool
  uploadOk : String → Bool
  info : String → InfoResult
  statMtime : String → Option Int

/-- Flat inventory of one side of the sync: relative file paths and
relative directory paths, in iteration order. -/
structure Inventory where
  files : List String
  dirs : List String
deriving DecidableEq

/-- One observable step of the reconciliation pass: an attempted remote
call together with its outcome, or the logged skip decision of the upload
loop. -/
inductive SyncEvent where
  | deleteFileOk (rel : String)
  | deleteFileErr (rel : String)
  | deleteDirOk (rel : String)
  | deleteDirErr (rel : String)
  | mkdirOk (rel : String)
  | mkdirErr (rel : String)
  | uploadOk (rel : String)
  | uploadErr (rel : String)
  | skip (rel : String)
deriving DecidableEq

/-- The counter variables `startup_sync` maintains and prints:
`deleted_count`, `deleted_dirs`, `created_dirs` and `uploaded_count`.
These four are the only aggregates the pass keeps; skipped files and
per-item errors are printed individually and counted nowhere. -/
structure SyncCounters where
  deleted_count : Nat
  deleted_dirs : Nat
  created_dirs : Nat
  uploaded_count : Nat
deriving DecidableEq

/-- Embedding of the first loop of `startup_sync`: for every remote file
not present locally, attempt `clean` on the mapped remote path; a failure
is printed and the loop continues; the counter increments only after a
successful call. -/
def deleteFilesPhase (env : RemoteEnv) (localFiles : List String) :
    List String → List SyncEvent × Nat
  | [] => ([], 0)
  | f :: rest =>
    let r := deleteFilesPhase env localFiles rest
    if f ∈ localFiles then r
    else if env.cleanOk (remotePathOf f) then (SyncEvent.deleteFileOk f :: r.1, r.2 + 1)
    else (SyncEvent.deleteFileErr f :: r.1, r.2)

/-- Embedding of the second loop of `startup_sync`: for every remote
directory (iterated in the order given, which the caller sorts by length
descending) not present locally, attempt `clean`; same per-item isolation
and counting as the file loop. -/
def deleteDirsPhase (env : RemoteEnv) (localDirs : List String) :
    List String → List SyncEvent × Nat
  | [] => ([], 0)
  | d :: rest =>
    let r := deleteDirsPhase env localDirs rest
    if d ∈ localDirs then r
    else if env.cleanOk (remotePathOf d) then (SyncEvent.deleteDirOk d :: r.1, r.2 + 1)
    else (SyncEvent.deleteDirErr d :: r.1, r.2)

/-- Embedding of the third loop of `startup_sync`: attempt `mkdir` for
every local directory; any exception is swallowed (the source comments
that the directory might already exist) and the counter increments only
on success. -/
def mkdirPhase (env : RemoteEnv) : List String → List SyncEvent × Nat
  | [] => ([], 0)
  | d :: rest =>
    let r := mkdirPhase env rest
    if env.mkdirOk (remotePathOf d) then (SyncEvent.mkdirOk d :: r.1, r.2 + 1)
    else (SyncEvent.mkdirErr d :: r.1, r.2)

/-- Staleness decision of the upload loop: `should_upload` starts `true`;
when the metadata query returns usable metadata and the local stat
succeeds and the local time is at most the remote time, it becomes
`false`; every exception inside the inner try (metadata query, stat,
float parse) is swallowed, leaving the flag `true`. -/
def shouldUpload (env : RemoteEnv) (f : String) : Bool :=
  match env.info (remotePathOf f) with
  | InfoResult.raise => true
  | InfoResult.falsy => true
  | InfoResult.metadata m =>
    match env.statMtime f with
    | none => true
    | some lm => if lm ≤ m then false else true

/-- Event the upload loop produces for one local file: an upload attempt
(successful or failing) when the staleness check decides to upload, the
logged skip otherwise. -/
def uploadEventFor (env : RemoteEnv) (f : String) : SyncEvent :=
  if shouldUpload env f then
    if env.uploadOk (remotePathOf f) then SyncEvent.uploadOk f
    else SyncEvent.uploadErr f
  else SyncEvent.skip f

/-- Embedding of the fourth loop of `startup_sync`: for every local file,
run the staleness check and either attempt the upload or skip; the outer
per-file except catches an upload failure and the loop continues; the
counter increments only after a successful upload. -/
def uploadPhase (env : RemoteEnv) : List String → List SyncEvent × Nat
  | [] => ([], 0)
  | f :: rest =>
    let r := uploadPhase env rest
    if shouldUpload env f then
      if env.uploadOk (remotePathOf f) then (SyncEvent.uploadOk f :: r.1, r.2 + 1)
      else (SyncEvent.uploadErr f :: r.1, r.2)
    else (SyncEvent.skip f :: r.1, r.2)

/-- Ordering used by the directory delete loop: the Python call
`sorted(remote_dirs, key=len, reverse=True)` places longer paths first. -/
def lenGE (x y : String) : Prop := y.length ≤ x.length

instance : DecidableRel lenGE := fun x y => Nat.decLe y.length x.length

instance : IsTotal String lenGE := ⟨fun x y => Nat.le_total y.length x.length⟩

instance : IsTrans String lenGE := ⟨fun _ _ _ h1 h2 => Nat.le_trans h2 h1⟩

/-- Model of `sorted(dirs, key=len, reverse=True)`: a stable sort placing
paths of greater length first. -/
def sortDirsDeepestFirst (dirs : List String) : List String :=
  List.insertionSort lenGE dirs

/-- Embedding of `startup_sync` after the two tree scans: given the local
inventory, the remote inventory and the remote environment, runs the four
loops in program order and returns the full event trace together with the
four counters the script prints. The Python function itself returns None;
the trace and the counters are its observable output. -/
def startup_sync (env : RemoteEnv) (localInv remoteInv : Inventory) :
    List SyncEvent × SyncCounters :=
  let p1 := deleteFilesPhase env localInv.files remoteInv.files
  let p2 := deleteDirsPhase env localInv.dirs (sortDirsDeepestFirst remoteInv.dirs)
  let p3 := mkdirPhase env localInv.dirs
  let p4 := uploadPhase env localInv.files
  (p1.1 ++ p2.1 ++ p3.1 ++ p4.1, ⟨p1.2, p2.2, p3.2, p4.2⟩)

/-- Event trace of one reconciliation pass. -/
def syncTrace (env : RemoteEnv) (localInv remoteInv : Inventory) : List SyncEvent :=
  (startup_sync env localInv remoteInv).1

/-- Counters of one reconciliation pass. -/
def syncCounters (env : RemoteEnv) (localInv remoteInv : Inventory) : SyncCounters :=
  (startup_sync env localInv remoteInv).2

/-- Relative path targeted by a remote-file-delete event. -/
def fileDeleteTarget : SyncEvent → Option String
  | .deleteFileOk f => some f
  | .deleteFileErr f => some f
  | _ => none

/-- Relative path targeted by a remote-directory-delete event. -/
def dirDeleteTarget : SyncEvent → Option String
  | .deleteDirOk d => some d
  | .deleteDirErr d => some d
  | _ => none

/-- Relative path targeted by a directory-create event. -/
def mkdirTarget : SyncEvent → Option String
  | .mkdirOk d => some d
  | .mkdirErr d => some d
  | _ => none

/-- Relative path handled by an upload-loop event, whether it uploaded,
failed or skipped. -/
def uploadCheckTarget : SyncEvent → Option String
  | .uploadOk f => some f
  | .uploadErr f => some f
  | .skip f => some f
  | _ => none

/-- Phases of the reconciliation pass, in program order. -/
inductive PhaseTag where
  | fileDelete
  | dirDelete
  | dirCreate
  | uploadCheck
deriving DecidableEq

/-- Per-item attempt described by an event, with the outcome erased: which
phase touched which relative path. -/
def eventItem : SyncEvent → PhaseTag × String
  | .deleteFileOk f => (PhaseTag.fileDelete, f)
  | .deleteFileErr f => (PhaseTag.fileDelete, f)
  | .deleteDirOk d => (PhaseTag.dirDelete, d)
  | .deleteDirErr d => (PhaseTag.dirDelete, d)
  | .mkdirOk d => (PhaseTag.dirCreate, d)
  | .mkdirErr d => (PhaseTag.dirCreate, d)
  | .uploadOk f => (PhaseTag.uploadCheck, f)
  | .uploadErr f => (PhaseTag.uploadCheck, f)
  | .skip f => (PhaseTag.uploadCheck, f)

/-- Sequence of per-item attempts of a pass, failures and successes alike,
with outcomes erased. -/
def attemptSkeleton (env : RemoteEnv) (localInv remoteInv : Inventory) :
    List (PhaseTag × String) :=
  (syncTrace env localInv remoteInv).map eventItem

/-- Per-item attempts determined by the two inventories alone: the pass
touches exactly the remote files absent locally, then the remote
directories absent locally in deepest-first order, then every local
directory, then every local file. -/
def plannedItems (localInv remoteInv : Inventory) : List (PhaseTag × String) :=
  (remoteInv.files.filterMap fun f =>
      if f ∈ localInv.files then none else some (PhaseTag.fileDelete, f))
    ++ ((sortDirsDeepestFirst remoteInv.dirs).filterMap fun d =>
      if d ∈ localInv.dirs then none else some (PhaseTag.dirDelete, d))
    ++ (localInv.dirs.map fun d => (PhaseTag.dirCreate, d))
    ++ (localInv.files.map fun f => (PhaseTag.uploadCheck, f))

/-- Successful remote-file-delete event test. -/
def isDeleteFileOk : SyncEvent → Bool
  | .deleteFileOk _ => true
  | _ => false

/-- Successful remote-directory-delete event test. -/
def isDeleteDirOk : SyncEvent → Bool
  | .deleteDirOk _ => true
  | _ => false

/-- Successful directory-create event test. -/
def isMkdirOk : SyncEvent → Bool
  | .mkdirOk _ => true
  | _ => false

/-- Successful upload event test. -/
def isUploadOk : SyncEvent → Bool
  | .uploadOk _ => true
  | _ => false

/-- Skip event test. -/
def isSkip : SyncEvent → Bool
  | .skip _ => true
  | _ => false

/-- Test for the events the pass logs as per-item errors: failed file
deletes, failed directory deletes and failed uploads. A failed `mkdir` is
swallowed silently and never reported as an error. -/
def isLoggedErr : SyncEvent → Bool
  | .deleteFileErr _ => true
  | .deleteDirErr _ => true
  | .uploadErr _ => true
  | _ => false

/-- Ordered sequence of the relative paths on which the pass attempts a
remote directory delete. -/
def dirDeleteSeq (env : RemoteEnv) (localInv remoteInv : Inventory) : List String :=
  (syncTrace env localInv remoteInv).filterMap dirDeleteTarget

/-- Environment for the remote tree scan: the entries `client.list`
returns for a path, or `none` when the call raises (the warning branch). -/
structure ScanEnv where
  listing : String → Option (List String)

/-- Embedding of `list_remote_recursive` inside `startup_sync`: lists a
remote path, classifies each entry by its trailing slash, relativizes the
current path with `path.replace(REMOTE_DIR, "").lstrip("/")`, records the
entry, and recurses into directories. A failing listing contributes
nothing for that path. The fuel argument bounds the recursion depth; the
concrete runs below use ample fuel. Returns the accumulated relative file
paths and relative directory paths. -/
def list_remote_recursive (env : ScanEnv) : Nat → String → List String × List String
  | 0, _ => ([], [])
  | fuel + 1, path =>
    match env.listing path with
    | none => ([], [])
    | some items =>
      items.foldr
        (fun item acc =>
          let contrib :=
            if endsWithSlash item then
              let dirName := lastComponent (rstripSlash item)
              if dirName = "" then ([], [])
              else
                let relPath := lstripSlash (pyReplace path REMOTE_DIR "")
                let newDir := if relPath = "" then dirName else relPath ++ "/" ++ dirName
                let sub := list_remote_recursive env fuel (path ++ "/" ++ dirName)
                (sub.1, newDir :: sub.2)
            else
              let relPath := lstripSlash (pyReplace path REMOTE_DIR "")
              let newFile := if relPath = "" then item else relPath ++ "/" ++ item
              ([newFile], [])
          (contrib.1 ++ acc.1, contrib.2 ++ acc.2))
        ([], [])

/-- Relativization of a scanned path as the script performs it: remove
every occurrence of REMOTE_DIR by `str.replace`, then strip leading
slashes. -/
def scanRelativize (path : String) : String :=
  lstripSlash (pyReplace path REMOTE_DIR "")

/-- Modelled from the spec: relativization of the Path Mapper as the spec
words it, for comparison with `scanRelativize`: a path strictly inside
the remote root yields the unique relative path obtained by stripping the
remote-root prefix; other paths are outside the root. -/
def stripRemoteRoot (p : String) : Option String :=
  if (REMOTE_DIR ++ "/").data.isPrefixOf p.data then
    some (String.mk (p.data.drop (REMOTE_DIR ++ "/").data.length))
  else none

/-- Concrete remote tree for the scan theorems: the root contains the
directory `sub`, `sub` contains a directory carrying the same name as the
remote root directory itself, and that inner directory contains one
file. -/
def scanEnvInnerRootName : ScanEnv where
  listing p :=
    if p = "/HetznerDrive" then some ["sub/"]
    else if p = "/HetznerDrive/sub" then some ["HetznerDrive/"]
    else if p = "/HetznerDrive/sub/HetznerDrive" then some ["f.txt"]
    else none

/-- Environment for one run of `main`: whether each startup step raises,
plus the remote environment and the two scanned inventories driving the
reconciliation pass. -/
structure MainEnv where
  clientInitOk : Bool
  localMkdirOk : Bool
  remoteMkdirOk : Bool
  observerOk : Bool
  renv : RemoteEnv
  localInv : Inventory
  remoteInv : Inventory

/-- Embedding of `main`: the value the Python function returns. An
exception while building the WebDAV client, creating the local root or
starting the observer reaches the outer except, which logs the fatal
error and returns 1. A failure to create the remote root is caught by its
own inner except and merely warned about, so the run continues: the
definition does not branch on `remoteMkdirOk`. The sleep loop runs until
KeyboardInterrupt, which is caught; the observer is stopped and joined
and `main` returns 0. -/
def mainRun (env : MainEnv) : Nat :=
  if env.clientInitOk = false then 1
  else if env.localMkdirOk = false then 1
  else
    let _sync := startup_sync env.renv env.localInv env.remoteInv
    if env.observerOk = false then 1
    else 0

/-- Embedding of the module tail: the script calls `main()` as a bare
statement under the name-equals-main guard and never passes the returned
value to `sys.exit`, so whenever `main` returns at all the interpreter
exits with status 0. -/
def scriptExitCode (env : MainEnv) : Nat :=
  let _ret := mainRun env
  0

/-- Remote environment in which every call succeeds and every remote file
is reported absent. -/
def remoteEnvAllOk : RemoteEnv :=
  ⟨fun _ => true, fun _ => true, fun _ => true, fun _ => InfoResult.raise, fun _ => some 0⟩

/-- Remote environment for the summary counterexample, skip side: the
single file exists remotely with a newer timestamp, so the pass skips
it. -/
def remoteEnvSkipSide : RemoteEnv :=
  ⟨fun _ => true, fun _ => true, fun _ => true,
    fun _ => InfoResult.metadata 10, fun _ => some 5⟩

/-- Remote environment for the summary counterexample, error side: the
metadata query raises, so the pass tries to upload, and the upload call
fails. -/
def remoteEnvErrSide : RemoteEnv :=
  ⟨fun _ => true, fun _ => true, fun _ => false,
    fun _ => InfoResult.raise, fun _ => some 5⟩

/-- Local inventory holding a single file, for the concrete theorems. -/
def invOneFile : Inventory := ⟨["a.txt"], []⟩

/-- Empty inventory, for the concrete theorems. -/
def invEmpty : Inventory := ⟨[], []⟩

/-- Main environment whose startup fails: the WebDAV client constructor
raises. -/
def mainEnvClientFault : MainEnv :=
  ⟨false, true, true, true, remoteEnvAllOk, invEmpty, invEmpty⟩

/-- Main environment of a clean run interrupted by the cancellation
signal. -/
def mainEnvClean : MainEnv :=
  ⟨true, true, true, true, remoteEnvAllOk, invEmpty, invEmpty⟩

/-- Remote environment for the staleness witness: the remote side reports
metadata with timestamp 3 for every path and the local stat returns 7. -/
def remoteEnvStaleWitness : RemoteEnv :=
  ⟨fun _ => true, fun _ => true, fun _ => true,
    fun _ => InfoResult.metadata 3, fun _ => some 7⟩

/-- Inventories for the deepest-first witness: the remote side has the
directories `a/b` and `a`, the local side has neither. -/
def invRemoteNestedDirs : Inventory := ⟨[], ["a", "a/b"]⟩

theorem filterMap_none_of_all {α β : Type} {f : α → Option β} {l : List α}
    (h : ∀ a ∈ l, f a = none) : l.filterMap f = [] := by
  induction l with
  | nil => rfl
  | cons x xs ih =>
    rw [List.filterMap_cons, h x (by simp)]
    exact ih fun a ha => h a (by simp [ha])

theorem deleteFilesPhase_trace (env : RemoteEnv) (lf : List String) (l : List String) :
    (deleteFilesPhase env lf l).1 = l.filterMap fun f =>
      if f ∈ lf then none
      else some (if env.cleanOk (remotePathOf f) then SyncEvent.deleteFileOk f
        else SyncEvent.deleteFileErr f) := by
  induction l with
  | nil => rfl
  | cons f rest ih =>
    by_cases hf : f ∈ lf
    · simp [deleteFilesPhase, hf, List.filterMap_cons, ih]
    · by_cases hc : env.cleanOk (remotePathOf f) = true
      · simp [deleteFilesPhase, hf, hc, List.filterMap_cons, ih]
      · simp [deleteFilesPhase, hf, hc, List.filterMap_cons, ih]

theorem deleteDirsPhase_trace (env : RemoteEnv) (ld : List String) (l : List String) :
    (deleteDirsPhase env ld l).1 = l.filterMap fun d =>
      if d ∈ ld then none
      else some (if env.cleanOk (remotePathOf d) then SyncEvent.deleteDirOk d
        else SyncEvent.deleteDirErr d) := by
  induction l with
  | nil => rfl
  | cons d rest ih =>
    by_cases hd : d ∈ ld
    · simp [deleteDirsPhase, hd, List.filterMap_cons, ih]
    · by_cases hc : env.cleanOk (remotePathOf d) = true
      · simp [deleteDirsPhase, hd, hc, List.filterMap_cons, ih]
      · simp [deleteDirsPhase, hd, hc, List.filterMap_cons, ih]

theorem mkdirPhase_trace (env : RemoteEnv) (l : List String) :
    (mkdirPhase env l).1 = l.map fun d =>
      if env.mkdirOk (remotePathOf d) then SyncEvent.mkdirOk d
      else SyncEvent.mkdirErr d := by
  induction l with
  | nil => rfl
  | cons d rest ih =>
    by_cases hc : env.mkdirOk (remotePathOf d) = true
    · simp [mkdirPhase, hc, ih]
    · simp [mkdirPhase, hc, ih]

theorem uploadPhase_trace (env : RemoteEnv) (l : List String) :
    (uploadPhase env l).1 = l.map (uploadEventFor env) := by
  induction l with
  | nil => rfl
  | cons f rest ih =>
    by_cases hs : shouldUpload env f = true
    · by_cases hu : env.uploadOk (remotePathOf f) = true
      · simp [uploadPhase, hs, hu, ih, uploadEventFor]
      · simp [uploadPhase, hs, hu, ih, uploadEventFor]
    · simp [uploadPhase, hs, ih, uploadEventFor]

theorem syncTrace_eq (env : RemoteEnv) (L R : Inventory) :
    syncTrace env L R
      = (deleteFilesPhase env L.files R.files).1
        ++ (deleteDirsPhase env L.dirs (sortDirsDeepestFirst R.dirs)).1
        ++ (mkdirPhase env L.dirs).1
        ++ (uploadPhase env L.files).1 := rfl

theorem filterMapDelete_mem {lf l : List String} {mk : String → SyncEvent}
    {tgt : SyncEvent → Option String} (htgt : ∀ g, tgt (mk g) = some g) (f : String) :
    (∃ e ∈ l.filterMap (fun g => if g ∈ lf then none else some (mk g)), tgt e = some f)
      ↔ f ∈ l ∧ f ∉ lf := by
  constructor
  · rintro ⟨e, he, hef⟩
    rcases List.mem_filterMap.1 he with ⟨g, hg, hge⟩
    by_cases hmem : g ∈ lf
    · simp [hmem] at hge
    · simp [hmem] at hge
      subst hge
      rw [htgt g] at hef
      cases hef
      exact ⟨hg, hmem⟩
  · rintro ⟨hfl, hflf⟩
    refine ⟨mk f, List.mem_filterMap.2 ⟨f, hfl, by simp [hflf]⟩, htgt f⟩

theorem filterMapDelete_all {lf l : List String} {mk : String → SyncEvent}
    (P : SyncEvent → Prop) (hP : ∀ g, P (mk g)) :
    ∀ e ∈ l.filterMap (fun g => if g ∈ lf then none else some (mk g)), P e := by
  intro e he
  rcases List.mem_filterMap.1 he with ⟨g, _, hge⟩
  by_cases hmem : g ∈ lf
  · simp [hmem] at hge
  · simp [hmem] at hge
    subst hge
    exact hP g

theorem deleteFilesPhase_count (env : RemoteEnv) (lf l : List String) :
    (deleteFilesPhase env lf l).2 = ((deleteFilesPhase env lf l).1).countP isDeleteFileOk := by
  induction l with
  | nil => rfl
  | cons f rest ih =>
    by_cases hf : f ∈ lf
    · simp [deleteFilesPhase, hf, ih]
    · by_cases hc : env.cleanOk (remotePathOf f) = true
      · simp [deleteFilesPhase, hf, hc, List.countP_cons, isDeleteFileOk, ih]
      · simp [deleteFilesPhase, hf, hc, List.countP_cons, isDeleteFileOk, ih]

theorem deleteDirsPhase_count (env : RemoteEnv) (ld l : List String) :
    (deleteDirsPhase env ld l).2 = ((deleteDirsPhase env ld l).1).countP isDeleteDirOk := by
  induction l with
  | nil => rfl
  | cons d rest ih =>
    by_cases hd : d ∈ ld
    · simp [deleteDirsPhase, hd, ih]
    · by_cases hc : env.cleanOk (remotePathOf d) = true
      · simp [deleteDirsPhase, hd, hc, List.countP_cons, isDeleteDirOk, ih]
      · simp [deleteDirsPhase, hd, hc, List.countP_cons, isDeleteDirOk, ih]

theorem mkdirPhase_count (env : RemoteEnv) (l : List String) :
    (mkdirPhase env l).2 = ((mkdirPhase env l).1).countP isMkdirOk := by
  induction l with
  | nil => rfl
  | cons d rest ih =>
    by_cases hc : env.mkdirOk (remotePathOf d) = true
    · simp [mkdirPhase, hc, List.countP_cons, isMkdirOk, ih]
    · simp [mkdirPhase, hc, List.countP_cons, isMkdirOk, ih]

theorem uploadPhase_count (env : RemoteEnv) (l : List String) :
    (uploadPhase env l).2 = ((uploadPhase env l).1).countP isUploadOk := by
  induction l with
  | nil => rfl
  | cons f rest ih =>
    by_cases hs : shouldUpload env f = true
    · by_cases hu : env.uploadOk (remotePathOf f) = true
      · simp [uploadPhase, hs, hu, List.countP_cons, isUploadOk, ih]
      · simp [uploadPhase, hs, hu, List.countP_cons, isUploadOk, ih]
    · simp [uploadPhase, hs, List.countP_cons, isUploadOk, ih]

theorem deleteFilesPhase_countP_zero (env : RemoteEnv) (lf l : List String)
    (p : SyncEvent → Bool) (h1 : ∀ f, p (SyncEvent.deleteFileOk f) = false)
    (h2 : ∀ f, p (SyncEvent.deleteFileErr f) = false) :
    ((deleteFilesPhase env lf l).1).countP p = 0 := by
  rw [List.countP_eq_zero, deleteFilesPhase_trace]
  refine filterMapDelete_all (fun e => ¬ p e = true) fun g => ?_
  by_cases hc : env.cleanOk (remotePathOf g) = true
  · simp [hc, h1]
  · simp [hc, h2]

theorem deleteDirsPhase_countP_zero (env : RemoteEnv) (ld l : List String)
    (p : SyncEvent → Bool) (h1 : ∀ d, p (SyncEvent.deleteDirOk d) = false)
    (h2 : ∀ d, p (SyncEvent.deleteDirErr d) = false) :
    ((deleteDirsPhase env ld l).1).countP p = 0 := by
  rw [List.countP_eq_zero, deleteDirsPhase_trace]
  refine filterMapDelete_all (fun e => ¬ p e = true) fun g => ?_
  by_cases hc : env.cleanOk (remotePathOf g) = true
  · simp [hc, h1]
  · simp [hc, h2]

theorem mkdirPhase_countP_zero (env : RemoteEnv) (l : List String)
    (p : SyncEvent → Bool) (h1 : ∀ d, p (SyncEvent.mkdirOk d) = false)
    (h2 : ∀ d, p (SyncEvent.mkdirErr d) = false) :
    ((mkdirPhase env l).1).countP p = 0 := by
  rw [List.countP_eq_zero, mkdirPhase_trace]
  intro e he
  rcases List.mem_map.1 he with ⟨d, _, hde⟩
  subst hde
  by_cases hc : env.mkdirOk (remotePathOf d) = true
  · simp [hc, h1]
  · simp [hc, h2]

theorem uploadPhase_countP_zero (env : RemoteEnv) (l : List String)
    (p : SyncEvent → Bool) (h1 : ∀ f, p (SyncEvent.uploadOk f) = false)
    (h2 : ∀ f, p (SyncEvent.uploadErr f) = false)
    (h3 : ∀ f, p (SyncEvent.skip f) = false) :
    ((uploadPhase env l).1).countP p = 0 := by
  rw [List.countP_eq_zero, uploadPhase_trace]
  intro e he
  rcases List.mem_map.1 he with ⟨f, _, hfe⟩
  subst hfe
  unfold uploadEventFor
  by_cases hs : shouldUpload env f = true
  · by_cases hu : env.uploadOk (remotePathOf f) = true
    · simp [hs, hu, h1]
    · simp [hs, hu, h2]
  · simp [hs, h3]

theorem deleteDirsPhase_seq (env : RemoteEnv) (ld l : List String) :
    ((deleteDirsPhase env ld l).1).filterMap dirDeleteTarget
      = l.filterMap fun d => if d ∈ ld then none else some d := by
  induction l with
  | nil => rfl
  | cons d rest ih =>
    by_cases hd : d ∈ ld
    · simp [deleteDirsPhase, hd, List.filterMap_cons, ih]
    · by_cases hc : env.cleanOk (remotePathOf d) = true
      · simp [deleteDirsPhase, hd, hc, List.filterMap_cons, ih, dirDeleteTarget]
      · simp [deleteDirsPhase, hd, hc, List.filterMap_cons, ih, dirDeleteTarget]

theorem deleteFilesPhase_dirSeq (env : RemoteEnv) (lf l : List String) :
    ((deleteFilesPhase env lf l).1).filterMap dirDeleteTarget = [] := by
  apply filterMap_none_of_all
  rw [deleteFilesPhase_trace]
  refine filterMapDelete_all (fun e => dirDeleteTarget e = none) fun g => ?_
  by_cases hc : env.cleanOk (remotePathOf g) = true
  · simp [hc, dirDeleteTarget]
  · simp [hc, dirDeleteTarget]

theorem mkdirPhase_dirSeq (env : RemoteEnv) (l : List String) :
    ((mkdirPhase env l).1).filterMap dirDeleteTarget = [] := by
  apply filterMap_none_of_all
  rw [mkdirPhase_trace]
  intro e he
  rcases List.mem_map.1 he with ⟨d, _, hde⟩
  subst hde
  by_cases hc : env.mkdirOk (remotePathOf d) = true
  · simp [hc, dirDeleteTarget]
  · simp [hc, dirDeleteTarget]

theorem uploadPhase_dirSeq (env : RemoteEnv) (l : List String) :
    ((uploadPhase env l).1).filterMap dirDeleteTarget = [] := by
  apply filterMap_none_of_all
  rw [uploadPhase_trace]
  intro e he
  rcases List.mem_map.1 he with ⟨f, _, hfe⟩
  subst hfe
  unfold uploadEventFor
  by_cases hs : shouldUpload env f = true
  · by_cases hu : env.uploadOk (remotePathOf f) = true
    · simp [hs, hu, dirDeleteTarget]
    · simp [hs, hu, dirDeleteTarget]
  · simp [hs, dirDeleteTarget]

theorem dirDeleteSeq_eq (env : RemoteEnv) (L R : Inventory) :
    dirDeleteSeq env L R = (sortDirsDeepestFirst R.dirs).filterMap fun d =>
      if d ∈ L.dirs then none else some d := by
  unfold dirDeleteSeq
  rw [syncTrace_eq, List.filterMap_append, List.filterMap_append, List.filterMap_append,
    deleteFilesPhase_dirSeq, deleteDirsPhase_seq, mkdirPhase_dirSeq, uploadPhase_dirSeq]
  simp

theorem skeleton_phase1 (env : RemoteEnv) (lf l : List String) :
    ((deleteFilesPhase env lf l).1).map eventItem
      = l.filterMap fun f => if f ∈ lf then none else some (PhaseTag.fileDelete, f) := by
  rw [deleteFilesPhase_trace, List.map_filterMap]
  have h : (fun f => (Option.map eventItem
      (if f ∈ lf then none
        else some (if env.cleanOk (remotePathOf f) then SyncEvent.deleteFileOk f
          else SyncEvent.deleteFileErr f))))
      = fun f => if f ∈ lf then none else some (PhaseTag.fileDelete, f) := by
    funext f
    by_cases hf : f ∈ lf
    · simp [hf]
    · by_cases hc : env.cleanOk (remotePathOf f) = true
      · simp [hf, hc, eventItem]
      · simp [hf, hc, eventItem]
  rw [h]

theorem skeleton_phase2 (env : RemoteEnv) (ld l : List String) :
    ((deleteDirsPhase env ld l).1).map eventItem
      = l.filterMap fun d => if d ∈ ld then none else some (PhaseTag.dirDelete, d) := by
  rw [deleteDirsPhase_trace, List.map_filterMap]
  have h : (fun d => (Option.map eventItem
      (if d ∈ ld then none
        else some (if env.cleanOk (remotePathOf d) then SyncEvent.deleteDirOk d
          else SyncEvent.deleteDirErr d))))
      = fun d => if d ∈ ld then none else some (PhaseTag.dirDelete, d) := by
    funext d
    by_cases hd : d ∈ ld
    · simp [hd]
    · by_cases hc : env.cleanOk (remotePathOf d) = true
      · simp [hd, hc, eventItem]
      · simp [hd, hc, eventItem]
  rw [h]

theorem skeleton_phase3 (env : RemoteEnv) (l : List String) :
    ((mkdirPhase env l).1).map eventItem = l.map fun d => (PhaseTag.dirCreate, d) := by
  rw [mkdirPhase_trace, List.map_map]
  apply List.map_congr_left
  intro d _
  by_cases hc : env.mkdirOk (remotePathOf d) = true
  · simp [hc, eventItem]
  · simp [hc, eventItem]

theorem skeleton_phase4 (env : RemoteEnv) (l : List String) :
    ((uploadPhase env l).1).map eventItem = l.map fun f => (PhaseTag.uploadCheck, f) := by
  rw [uploadPhase_trace, List.map_map]
  apply List.map_congr_left
  intro f _
  unfold Function.comp uploadEventFor
  by_cases hs : shouldUpload env f = true
  · by_cases hu : env.uploadOk (remotePathOf f) = true
    · simp [hs, hu, eventItem]
    · simp [hs, hu, eventItem]
  · simp [hs, eventItem]

theorem mapPhase_mem {l : List String} {mk : String → SyncEvent}
    {tgt : SyncEvent → Option String} (htgt : ∀ g, tgt (mk g) = some g) (f : String) :
    (∃ e ∈ l.map mk, tgt e = some f) ↔ f ∈ l := by
  constructor
  · rintro ⟨e, he, hef⟩
    rcases List.mem_map.1 he with ⟨g, hg, hge⟩
    subst hge
    rw [htgt g] at hef
    cases hef
    exact hg
  · intro hfl
    exact ⟨mk f, List.mem_map_of_mem mk hfl, htgt f⟩

theorem mem_sortDirs {a : String} {l : List String} :
    a ∈ sortDirsDeepestFirst l ↔ a ∈ l :=
  (List.perm_insertionSort lenGE l).mem_iff

theorem sortDirs_sorted (l : List String) :
    List.Sorted lenGE (sortDirsDeepestFirst l) :=
  List.sorted_insertionSort lenGE l

theorem filterMap_if_eq_filter (ld l : List String) :
    (l.filterMap fun d => if d ∈ ld then none else some d)
      = l.filter fun d => decide (d ∉ ld) := by
  induction l with
  | nil => rfl
  | cons d rest ih =>
    by_cases hd : d ∈ ld
    · simp [List.filterMap_cons, List.filter_cons, hd, ih]
    · simp [List.filterMap_cons, List.filter_cons, hd, ih]

theorem dirDeleteSeq_pairwise (env : RemoteEnv) (L R : Inventory) :
    (dirDeleteSeq env L R).Pairwise lenGE := by
  rw [dirDeleteSeq_eq, filterMap_if_eq_filter]
  exact List.Pairwise.sublist (List.filter_sublist _) (sortDirs_sorted R.dirs)

theorem mem_dirDeleteSeq (env : RemoteEnv) (L R : Inventory) {d : String}
    (hd : d ∈ R.dirs) (hnd : d ∉ L.dirs) : d ∈ dirDeleteSeq env L R := by
  rw [dirDeleteSeq_eq, filterMap_if_eq_filter]
  exact List.mem_filter.2 ⟨mem_sortDirs.2 hd, by simp [hnd]⟩

theorem attemptSkeleton_eq (env : RemoteEnv) (L R : Inventory) :
    attemptSkeleton env L R = plannedItems L R := by
  unfold attemptSkeleton plannedItems
  rw [syncTrace_eq]
  simp only [List.map_append]
  rw [skeleton_phase1, skeleton_phase2, skeleton_phase3, skeleton_phase4]

/-- C1: the claim is refuted by the code. When a Moved event carries a
source path that is not a descendant of the watched root, `relative_to`
raises inside the try block of `on_moved` before `remote_path_source` is
assigned; the except block then formats that unbound name and itself
raises, so the exception propagates to the watch dispatch loop. The
second conjunct shows the contrasting case the handler does isolate: a
source inside the root with a destination outside is caught and logged. -/
theorem on_moved_crash_escapes_handler :
    handleEvent "/home/user/HetznerDrive" watchEnvAllOk
      (ChangeEvent.moved false "/etc/a.txt" "/etc/b.txt") = HandlerOutcome.crashed
    ∧ handleEvent "/home/user/HetznerDrive" watchEnvAllOk
      (ChangeEvent.moved false "/home/user/HetznerDrive/a.txt" "/etc/b.txt")
      = HandlerOutcome.logged [] :=
  ⟨rfl, rfl⟩

/-- C2 counterexample: a Deleted event with isDirectory true issues no
remote operation at all, against the claim that every Deleted event
issues exactly one remote delete. -/
theorem deleted_directory_event_issues_nothing :
    handleEvent "/home/user/HetznerDrive" watchEnvAllOk
      (ChangeEvent.deleted true "/home/user/HetznerDrive/sub") = HandlerOutcome.ok []
    ∧ (handleEvent "/home/user/HetznerDrive" watchEnvAllOk
      (ChangeEvent.deleted true "/home/user/HetznerDrive/sub")).attemptedOps = [] :=
  ⟨rfl, rfl⟩

/-- C2 amended: a Deleted event with isDirectory false whose path lies
under the local root attempts exactly one recursive-capable remote delete
(the `clean` call) on the mapped remote path; a Deleted event with
isDirectory true attempts no remote operation; neither case lets an
exception escape the handler. -/
theorem deleted_event_ops (root : String) (env : WatchEnv) (p : String) :
    (∀ rel, relativeTo p root = some rel →
      (handleEvent root env (ChangeEvent.deleted false p)).attemptedOps
        = [RemoteOp.clean (toSlash (REMOTE_DIR ++ "/" ++ rel))])
    ∧ (handleEvent root env (ChangeEvent.deleted true p)).attemptedOps = []
    ∧ handleEvent root env (ChangeEvent.deleted false p) ≠ HandlerOutcome.crashed
    ∧ handleEvent root env (ChangeEvent.deleted true p) ≠ HandlerOutcome.crashed := by
  refine ⟨?_, rfl, ?_, ?_⟩
  · intro rel h
    show (LocalHandler.on_deleted root env false p).attemptedOps = _
    unfold LocalHandler.on_deleted
    rw [if_neg (by simp)]
    rw [h]
    by_cases hc : env.cleanOk (toSlash (REMOTE_DIR ++ "/" ++ rel)) = true
    · simp [hc, HandlerOutcome.attemptedOps]
    · simp [hc, HandlerOutcome.attemptedOps]
  · show LocalHandler.on_deleted root env false p ≠ HandlerOutcome.crashed
    unfold LocalHandler.on_deleted
    rw [if_neg (by simp)]
    cases hrel : relativeTo p root with
    | none => simp
    | some rel =>
      by_cases hc : env.cleanOk (toSlash (REMOTE_DIR ++ "/" ++ rel)) = true
      · simp [hc]
      · simp [hc]
  · show LocalHandler.on_deleted root env true p ≠ HandlerOutcome.crashed
    simp [LocalHandler.on_deleted]

/-- C3: for every file of the local inventory the upload loop of
`startup_sync` produces exactly one event; the staleness decision uploads
unconditionally when the metadata query raises or reports nothing usable,
and when metadata with remote timestamp m and a local timestamp lm are
available it uploads exactly when lm is strictly greater than m, skipping
on equality. -/
theorem upload_staleness_rule (env : RemoteEnv) (L R : Inventory) (f : String)
    (hf : f ∈ L.files) :
    uploadEventFor env f ∈ syncTrace env L R
    ∧ (shouldUpload env f = true ↔ isSkip (uploadEventFor env f) = false)
    ∧ (env.info (remotePathOf f) = InfoResult.raise → shouldUpload env f = true)
    ∧ (env.info (remotePathOf f) = InfoResult.falsy → shouldUpload env f = true)
    ∧ (∀ m lm, env.info (remotePathOf f) = InfoResult.metadata m →
        env.statMtime f = some lm → (shouldUpload env f = true ↔ m < lm)) := by
  refine ⟨?_, ?_, ?_, ?_, ?_⟩
  · rw [syncTrace_eq]
    refine List.mem_append_right _ ?_
    rw [uploadPhase_trace]
    exact List.mem_map_of_mem (uploadEventFor env) hf
  · unfold uploadEventFor
    by_cases hs : shouldUpload env f = true
    · by_cases hu : env.uploadOk (remotePathOf f) = true
      · simp [hs, hu, isSkip]
      · simp [hs, hu, isSkip]
    · simp [hs, isSkip]
  · intro h
    unfold shouldUpload
    rw [h]
  · intro h
    unfold shouldUpload
    rw [h]
  · intro m lm hm hlm
    unfold shouldUpload
    rw [hm, hlm]
    change (if lm ≤ m then false else true) = true ↔ m < lm
    by_cases hle : lm ≤ m
    · rw [if_pos hle]
      exact iff_of_false (by simp) (by omega)
    · rw [if_neg hle]
      exact iff_of_true rfl (by omega)

/-- C3 witness: the staleness rule applied to the concrete environment in
which the single local file a.txt has local timestamp 7 and remote
timestamp 3, so the pass uploads it. -/
theorem upload_staleness_rule_witness :
    uploadEventFor remoteEnvStaleWitness "a.txt"
        ∈ syncTrace remoteEnvStaleWitness invOneFile invEmpty
    ∧ (shouldUpload remoteEnvStaleWitness "a.txt" = true
        ↔ isSkip (uploadEventFor remoteEnvStaleWitness "a.txt") = false)
    ∧ (remoteEnvStaleWitness.info (remotePathOf "a.txt") = InfoResult.raise →
        shouldUpload remoteEnvStaleWitness "a.txt" = true)
    ∧ (remoteEnvStaleWitness.info (remotePathOf "a.txt") = InfoResult.falsy →
        shouldUpload remoteEnvStaleWitness "a.txt" = true)
    ∧ (∀ m lm, remoteEnvStaleWitness.info (remotePathOf "a.txt") = InfoResult.metadata m →
        remoteEnvStaleWitness.statMtime "a.txt" = some lm →
        (shouldUpload remoteEnvStaleWitness "a.txt" = true ↔ m < lm)) :=
  upload_staleness_rule remoteEnvStaleWitness invOneFile invEmpty "a.txt" (by decide)

/-- C4: the trace of the reconciliation pass splits into four consecutive
segments in program order: remote file deletes attempted exactly on the
remote files absent locally, remote directory deletes attempted exactly on
the remote directories absent locally, directory creates attempted exactly
on every local directory, and upload-loop events for exactly every local
file. -/
theorem startup_sync_plan_exact (env : RemoteEnv) (L R : Inventory) :
    ∃ t1 t2 t3 t4,
      syncTrace env L R = t1 ++ t2 ++ t3 ++ t4
      ∧ (∀ e ∈ t1, (fileDeleteTarget e).isSome = true)
      ∧ (∀ f, (∃ e ∈ t1, fileDeleteTarget e = some f) ↔ f ∈ R.files ∧ f ∉ L.files)
      ∧ (∀ e ∈ t2, (dirDeleteTarget e).isSome = true)
      ∧ (∀ d, (∃ e ∈ t2, dirDeleteTarget e = some d) ↔ d ∈ R.dirs ∧ d ∉ L.dirs)
      ∧ (∀ e ∈ t3, (mkdirTarget e).isSome = true)
      ∧ (∀ d, (∃ e ∈ t3, mkdirTarget e = some d) ↔ d ∈ L.dirs)
      ∧ (∀ e ∈ t4, (uploadCheckTarget e).isSome = true)
      ∧ (∀ f, (∃ e ∈ t4, uploadCheckTarget e = some f) ↔ f ∈ L.files) := by
  refine ⟨_, _, _, _, syncTrace_eq env L R, ?_, ?_, ?_, ?_, ?_, ?_, ?_, ?_⟩
  · rw [deleteFilesPhase_trace]
    exact filterMapDelete_all _ fun g => by
      by_cases hc : env.cleanOk (remotePathOf g) = true <;> simp [hc, fileDeleteTarget]
  · intro f
    rw [deleteFilesPhase_trace]
    exact filterMapDelete_mem (fun g => by
      by_cases hc : env.cleanOk (remotePathOf g) = true <;> simp [hc, fileDeleteTarget]) f
  · rw [deleteDirsPhase_trace]
    exact filterMapDelete_all _ fun g => by
      by_cases hc : env.cleanOk (remotePathOf g) = true <;> simp [hc, dirDeleteTarget]
  · intro d
    rw [deleteDirsPhase_trace]
    rw [filterMapDelete_mem (fun g => by
      by_cases hc : env.cleanOk (remotePathOf g) = true <;> simp [hc, dirDeleteTarget]) d]
    rw [mem_sortDirs]
  · rw [mkdirPhase_trace]
    intro e he
    rcases List.mem_map.1 he with ⟨d, _, hde⟩
    subst hde
    by_cases hc : env.mkdirOk (remotePathOf d) = true <;> simp [hc, mkdirTarget]
  · intro d
    rw [mkdirPhase_trace]
    exact mapPhase_mem (fun g => by
      by_cases hc : env.mkdirOk (remotePathOf g) = true <;> simp [hc, mkdirTarget]) d
  · rw [uploadPhase_trace]
    intro e he
    rcases List.mem_map.1 he with ⟨f, _, hfe⟩
    subst hfe
    unfold uploadEventFor
    by_cases hs : shouldUpload env f = true
    · by_cases hu : env.uploadOk (remotePathOf f) = true <;>
        simp [hs, hu, uploadCheckTarget]
    · simp [hs, uploadCheckTarget]
  · intro f
    rw [uploadPhase_trace]
    refine mapPhase_mem (fun g => ?_) f
    unfold uploadEventFor
    by_cases hs : shouldUpload env g = true
    · by_cases hu : env.uploadOk (remotePathOf g) = true <;>
        simp [hs, hu, uploadCheckTarget]
    · simp [hs, uploadCheckTarget]

/-- C5: the directory delete loop iterates the remote directories sorted
by path length descending, so for any two remote directories a/b and a,
both absent locally, the pass attempts the delete of a/b strictly before
the delete of a: both paths occur in the attempted-delete sequence and
every occurrence of a/b precedes every occurrence of a. -/
theorem dir_deletes_deepest_first (env : RemoteEnv) (L R : Inventory) (a b : String)
    (hab : a ++ "/" ++ b ∈ R.dirs) (ha : a ∈ R.dirs)
    (hab2 : a ++ "/" ++ b ∉ L.dirs) (ha2 : a ∉ L.dirs) :
    (a ++ "/" ++ b) ∈ dirDeleteSeq env L R ∧ a ∈ dirDeleteSeq env L R
    ∧ ∀ i j : Fin (dirDeleteSeq env L R).length,
        (dirDeleteSeq env L R).get i = a ++ "/" ++ b →
        (dirDeleteSeq env L R).get j = a → i < j := by
  have h1 : ("/" : String).length = 1 := rfl
  have hne : a ++ "/" ++ b ≠ a := by
    intro h
    have h2 := congrArg String.length h
    rw [String.length_append, String.length_append, h1] at h2
    omega
  have hget := List.pairwise_iff_get.1 (dirDeleteSeq_pairwise env L R)
  refine ⟨mem_dirDeleteSeq env L R hab hab2, mem_dirDeleteSeq env L R ha ha2, ?_⟩
  intro i j hi hj
  rcases lt_trichotomy i j with h | h | h
  · exact h
  · exfalso
    apply hne
    rw [← hi, h, hj]
  · exfalso
    have hle := hget j i h
    rw [hi, hj] at hle
    unfold lenGE at hle
    rw [String.length_append, String.length_append, h1] at hle
    omega

/-- C5 witness: with the remote directories a and a/b and an empty local
side, both directories are in the attempted-delete sequence and the
nested one comes strictly first. -/
theorem dir_deletes_deepest_first_witness :
    ("a" ++ "/" ++ "b") ∈ dirDeleteSeq remoteEnvAllOk invEmpty invRemoteNestedDirs
    ∧ "a" ∈ dirDeleteSeq remoteEnvAllOk invEmpty invRemoteNestedDirs
    ∧ ∀ i j : Fin (dirDeleteSeq remoteEnvAllOk invEmpty invRemoteNestedDirs).length,
        (dirDeleteSeq remoteEnvAllOk invEmpty invRemoteNestedDirs).get i = "a" ++ "/" ++ "b" →
        (dirDeleteSeq remoteEnvAllOk invEmpty invRemoteNestedDirs).get j = "a" → i < j :=
  dir_deletes_deepest_first remoteEnvAllOk invEmpty invRemoteNestedDirs "a" "b"
    (by decide) (by decide) (by decide) (by decide)

/-- C6: no single failure aborts the reconciliation pass: the per-item
attempt sequence of the pass, with outcomes erased, equals the plan
determined by the two inventories alone, whatever the environment makes
fail, and that plan covers every remote file absent locally, every remote
directory absent locally, every local directory and every local file. -/
theorem startup_sync_failure_isolated (env : RemoteEnv) (L R : Inventory) :
    attemptSkeleton env L R = plannedItems L R
    ∧ (∀ f ∈ R.files, f ∉ L.files → (PhaseTag.fileDelete, f) ∈ attemptSkeleton env L R)
    ∧ (∀ d ∈ R.dirs, d ∉ L.dirs → (PhaseTag.dirDelete, d) ∈ attemptSkeleton env L R)
    ∧ (∀ d ∈ L.dirs, (PhaseTag.dirCreate, d) ∈ attemptSkeleton env L R)
    ∧ (∀ f ∈ L.files, (PhaseTag.uploadCheck, f) ∈ attemptSkeleton env L R) := by
  refine ⟨attemptSkeleton_eq env L R, ?_, ?_, ?_, ?_⟩
  · intro f hf hnf
    rw [attemptSkeleton_eq]
    unfold plannedItems
    refine List.mem_append_left _ (List.mem_append_left _ (List.mem_append_left _ ?_))
    exact List.mem_filterMap.2 ⟨f, hf, by simp [hnf]⟩
  · intro d hd hnd
    rw [attemptSkeleton_eq]
    unfold plannedItems
    refine List.mem_append_left _ (List.mem_append_left _ (List.mem_append_right _ ?_))
    exact List.mem_filterMap.2 ⟨d, mem_sortDirs.2 hd, by simp [hnd]⟩
  · intro d hd
    rw [attemptSkeleton_eq]
    unfold plannedItems
    refine List.mem_append_left _ (List.mem_append_right _ ?_)
    exact List.mem_map_of_mem _ hd
  · intro f hf
    rw [attemptSkeleton_eq]
    unfold plannedItems
    refine List.mem_append_right _ ?_
    exact List.mem_map_of_mem _ hf

/-- C7 counterexample: two passes over the same single-file inventory, one
ending in a skip and the other in a logged upload error, return identical
counter sets, so the summary the pass maintains carries no filesSkipped
and no errors count. -/
theorem summary_lacks_skip_and_error_counts :
    syncCounters remoteEnvSkipSide invOneFile invEmpty
      = syncCounters remoteEnvErrSide invOneFile invEmpty
    ∧ (syncTrace remoteEnvSkipSide invOneFile invEmpty).countP isSkip = 1
    ∧ (syncTrace remoteEnvErrSide invOneFile invEmpty).countP isSkip = 0
    ∧ (syncTrace remoteEnvSkipSide invOneFile invEmpty).countP isLoggedErr = 0
    ∧ (syncTrace remoteEnvErrSide invOneFile invEmpty).countP isLoggedErr = 1 :=
  ⟨rfl, rfl, rfl, rfl, rfl⟩

/-- C7 amended: the pass maintains exactly four counters, equal to the
numbers of successful file deletes, successful directory deletes,
successful directory creates and successful uploads in its trace; skipped
files and per-item errors are logged but counted nowhere, and the Python
function returns no summary value. -/
theorem summary_counts_successes (env : RemoteEnv) (L R : Inventory) :
    (syncCounters env L R).deleted_count = (syncTrace env L R).countP isDeleteFileOk
    ∧ (syncCounters env L R).deleted_dirs = (syncTrace env L R).countP isDeleteDirOk
    ∧ (syncCounters env L R).created_dirs = (syncTrace env L R).countP isMkdirOk
    ∧ (syncCounters env L R).uploaded_count = (syncTrace env L R).countP isUploadOk := by
  refine ⟨?_, ?_, ?_, ?_⟩
  · show (deleteFilesPhase env L.files R.files).2 = _
    rw [syncTrace_eq, List.countP_append, List.countP_append, List.countP_append]
    rw [deleteDirsPhase_countP_zero env L.dirs _ isDeleteFileOk (fun _ => rfl) (fun _ => rfl)]
    rw [mkdirPhase_countP_zero env L.dirs isDeleteFileOk (fun _ => rfl) (fun _ => rfl)]
    rw [uploadPhase_countP_zero env L.files isDeleteFileOk
      (fun _ => rfl) (fun _ => rfl) (fun _ => rfl)]
    rw [deleteFilesPhase_count]
    omega
  · show (deleteDirsPhase env L.dirs (sortDirsDeepestFirst R.dirs)).2 = _
    rw [syncTrace_eq, List.countP_append, List.countP_append, List.countP_append]
    rw [deleteFilesPhase_countP_zero env L.files R.files isDeleteDirOk
      (fun _ => rfl) (fun _ => rfl)]
    rw [mkdirPhase_countP_zero env L.dirs isDeleteDirOk (fun _ => rfl) (fun _ => rfl)]
    rw [uploadPhase_countP_zero env L.files isDeleteDirOk
      (fun _ => rfl) (fun _ => rfl) (fun _ => rfl)]
    rw [deleteDirsPhase_count]
    omega
  · show (mkdirPhase env L.dirs).2 = _
    rw [syncTrace_eq, List.countP_append, List.countP_append, List.countP_append]
    rw [deleteFilesPhase_countP_zero env L.files R.files isMkdirOk
      (fun _ => rfl) (fun _ => rfl)]
    rw [deleteDirsPhase_countP_zero env L.dirs _ isMkdirOk (fun _ => rfl) (fun _ => rfl)]
    rw [uploadPhase_countP_zero env L.files isMkdirOk
      (fun _ => rfl) (fun _ => rfl) (fun _ => rfl)]
    rw [mkdirPhase_count]
    omega
  · show (uploadPhase env L.files).2 = _
    rw [syncTrace_eq, List.countP_append, List.countP_append, List.countP_append]
    rw [deleteFilesPhase_countP_zero env L.files R.files isUploadOk
      (fun _ => rfl) (fun _ => rfl)]
    rw [deleteDirsPhase_countP_zero env L.dirs _ isUploadOk (fun _ => rfl) (fun _ => rfl)]
    rw [mkdirPhase_countP_zero env L.dirs isUploadOk (fun _ => rfl) (fun _ => rfl)]
    rw [uploadPhase_count]
    omega

/-- C8: the claim is refuted by the code. The relativization in the scan
is `path.replace(REMOTE_DIR, "").lstrip("/")`, and `str.replace` removes
every occurrence of the root substring, not only the leading one: in a
remote tree whose inner directory carries the same name as the remote
root, the scan records the file /HetznerDrive/sub/HetznerDrive/f.txt
under the relative path sub/f.txt, while stripping the root prefix, as
the claim requires, yields sub/HetznerDrive/f.txt. -/
theorem scan_relativize_collision :
    (list_remote_recursive scanEnvInnerRootName 5 "/HetznerDrive").1 = ["sub/f.txt"]
    ∧ (list_remote_recursive scanEnvInnerRootName 5 "/HetznerDrive").2
      = ["sub", "sub/HetznerDrive"]
    ∧ scanRelativize "/HetznerDrive/sub/HetznerDrive" = "sub"
    ∧ stripRemoteRoot "/HetznerDrive/sub/HetznerDrive/f.txt"
      = some "sub/HetznerDrive/f.txt"
    ∧ ("sub/f.txt" : String) ≠ "sub/HetznerDrive/f.txt" :=
  ⟨rfl, rfl, rfl, rfl, by decide⟩

/-- C9: the claim is refuted by the code. On an unhandled startup fault
`main` returns 1, but the module tail calls `main()` without passing the
returned value to `sys.exit`, so the process exit status is 0 on the
fault path just as on the clean-shutdown path. -/
theorem exit_code_discarded :
    mainRun mainEnvClientFault = 1
    ∧ scriptExitCode mainEnvClientFault = 0
    ∧ mainRun mainEnvClean = 0
    ∧ scriptExitCode mainEnvClean = 0 :=
  ⟨rfl, rfl, rfl, rfl⟩

/-- C10: a Modified event with isDirectory true makes the handler return
immediately: no remote operation is attempted and the remote store is
left unchanged. -/
theorem modified_directory_event_noop (root : String) (env : WatchEnv) (p : String) :
    handleEvent root env (ChangeEvent.modified true p) = HandlerOutcome.ok [] := rfl
